import Mathlib

/-!
# Verification of the survey-shop aggregation and comparison engine

Shallow embedding of the data-transformation core of the dashboard:
the numeric cell parse (`parseFloat` as used by the aggregators), the
grouped / scalar averaging (`grouped-averages.js`, KPI module), the
peer-relative coloring, the comparison-item resolver with its 5-item cap,
the captured-once baseline state, the category counting (`charts.js`)
and the category-label segmentation.

Numbers are modelled exactly over `ℚ` (the JS engine computes in binary64;
all divergences checked here are structural and survive the change of
number representation).  Records are association lists from column name to
raw string cell; a missing field is `Option.none`, matching a JS
`undefined` property (note `parseFloat(undefined)` is `NaN`, i.e. a failed
parse, so `none ↦ none` is faithful).
-/

namespace SurveyShop

/-- ASCII whitespace recognised by JS `String.prototype.trim` and skipped by
`parseFloat` (the Unicode additions are irrelevant to the survey data). -/
def jsWhitespaceChar (c : Char) : Bool :=
  c == ' ' || c == '\t' || c == '\n' || c == '\r' || c == '\x0b' || c == '\x0c'

/-- Trim `jsWhitespaceChar`s from both ends of a character list. -/
def trimChars (cs : List Char) : List Char :=
  ((cs.dropWhile jsWhitespaceChar).reverse.dropWhile jsWhitespaceChar).reverse

/-- JS `String.prototype.trim` (on the ASCII whitespace set). -/
def jsTrim (s : String) : String := String.mk (trimChars s.data)

/-- Consume a maximal run of decimal digits, extending the accumulated value
`acc` and digit count `n`; returns (value, digit count, rest). -/
def digitsAux : List Char → ℕ → ℕ → ℕ × ℕ × List Char
  | [], acc, n => (acc, n, [])
  | c :: rest, acc, n =>
    if c.isDigit then digitsAux rest (10 * acc + (c.toNat - 48)) (n + 1)
    else (acc, n, c :: rest)

/-- Optional leading sign of a `StrDecimalLiteral`; returns the sign factor
and the remaining characters. -/
def splitSign (cs : List Char) : ℚ × List Char :=
  match cs with
  | c :: r => if c = '+' then (1, r) else if c = '-' then (-1, r) else (1, cs)
  | [] => (1, cs)

/-- Optional sign of an exponent part: `true` means negative. -/
def expSign (cs : List Char) : Bool × List Char :=
  match cs with
  | c :: r => if c = '+' then (false, r) else if c = '-' then (true, r) else (false, cs)
  | [] => (false, cs)

/-- The exponent denoted by an `ExponentPart` at the head of `cs`, as a signed
integer; `0` when no well-formed exponent part starts here (JS `parseFloat`
then simply does not consume it — the longest valid literal wins). -/
def parseExponentPart : List Char → ℤ
  | [] => 0
  | c :: r =>
    if c = 'e' ∨ c = 'E' then
      (let sg := expSign r
       let ev := digitsAux sg.2 0 0
       if ev.2.1 = 0 then 0 else if sg.1 then -(ev.1 : ℤ) else (ev.1 : ℤ))
    else 0

/-- Multiply by `10 ^ e` for a signed exponent, staying in `ℚ`. -/
def applyPow10 (q : ℚ) (e : ℤ) : ℚ :=
  if 0 ≤ e then q * 10 ^ e.toNat else q / 10 ^ (-e).toNat

/-- The optional fraction: a decimal point followed by a digit run; when the
head is no decimal point nothing is consumed. -/
def fracPart : List Char → ℕ × ℕ × List Char
  | [] => (0, 0, [])
  | c :: r => if c = '.' then digitsAux r 0 0 else (0, 0, c :: r)

/-- JS `parseFloat` on a character list: skip leading whitespace, then read
the longest prefix that is a `StrDecimalLiteral` — optional sign, digits
with an optional fraction (at least one digit overall), and an optional
exponent part; trailing characters are ignored.  `none` models `NaN`
(no valid numeric prefix).  The `Infinity` production is not modelled
(no survey cell, and no claim, involves it); values are exact rationals. -/
def jsParseFloatChars (cs : List Char) : Option ℚ :=
  let t := cs.dropWhile jsWhitespaceChar
  let sg := splitSign t
  let ipart := digitsAux sg.2 0 0
  let fpart := fracPart ipart.2.2
  if ipart.2.1 + fpart.2.1 = 0 then none
  else
    some (sg.1 * applyPow10 ((ipart.1 : ℚ) + (fpart.1 : ℚ) / (10 : ℚ) ^ fpart.2.1)
      (parseExponentPart fpart.2.2))

/-- JS `parseFloat` on a string (see `jsParseFloatChars`). -/
def jsParseFloat (s : String) : Option ℚ := jsParseFloatChars s.data

/-- Does the list start with a digit, or a decimal point followed by a digit?
Used to characterise exactly when `jsParseFloat` succeeds. -/
def headIsDigit (cs : List Char) : Bool :=
  match cs with
  | c :: _ => c.isDigit
  | [] => false

/-- After an optional sign: a numeric literal can start here. -/
def startsDigitOrDot (cs : List Char) : Bool :=
  match cs with
  | c :: r => if c = '.' then headIsDigit r else c.isDigit
  | [] => false

/-- A `StrDecimalLiteral` (without `Infinity`) starts at the head of `cs`. -/
def startsNumeric (cs : List Char) : Bool :=
  match cs with
  | c :: _ => if c = '+' ∨ c = '-' then startsDigitOrDot cs.tail else startsDigitOrDot cs
  | [] => false

/-- The tail of a strict decimal parse, after the digit run of the integer
part: the rest must be empty (an integer) or a decimal point followed by a
digit run reaching the end of the string (a decimal). -/
def specTail (sgn : ℚ) (ip nI : ℕ) : List Char → Option ℚ
  | [] => if 0 < nI then some (sgn * (ip : ℚ)) else none
  | c :: r =>
    if c = '.' then
      (let fpart := digitsAux r 0 0
       if 0 < nI ∧ 0 < fpart.2.1 ∧ fpart.2.2 = [] then
         some (sgn * ((ip : ℚ) + (fpart.1 : ℚ) / (10 : ℚ) ^ fpart.2.1))
       else none)
    else none

/-- Follows the spec's words (§4.2): «same semantics as a standard decimal
parse: leading whitespace allowed, integer or decimal, fails on empty string
or non-numeric content» — i.e. after optional leading whitespace the whole
remaining string must be an optionally signed integer (`digits`) or decimal
(`digits.digits`); anything else fails. -/
def specDecimalParse (s : String) : Option ℚ :=
  let t := s.data.dropWhile jsWhitespaceChar
  let sg := splitSign t
  let ipart := digitsAux sg.2 0 0
  specTail sg.1 ipart.1 ipart.2.1 ipart.2.2

/-- One survey response row: an association list from column name to raw
string cell (a JS object with string values). -/
abbrev Record := List (String × String)

/-- `row[col]` — `none` models an absent property (`undefined`). -/
def getField (r : Record) (k : String) : Option String :=
  (r.find? (fun p => p.1 == k)).map (fun p => p.2)

/-- `parseFloat(row[col])`: an absent field stringifies to `"undefined"`,
which fails the numeric parse, hence `none ↦ none`. -/
def parseFloatField (v : Option String) : Option ℚ :=
  match v with
  | none => none
  | some s => jsParseFloat s

/-- `NUM_COLUMNS` from the KPI module. -/
def NUM_COLUMNS : List String :=
  ["Q3_num", "Q4_num", "Q5_num", "Q6_num", "Q7_num", "Q8_num", "Q11_num"]

/-- `QUESTION_GROUPS` from `grouped-averages.js`. -/
def QUESTION_GROUPS : List (String × List String) :=
  [("Trust", ["Q3_num"]), ("Health", ["Q4_num"]), ("Relationships", ["Q5_num"]),
   ("Impact", ["Q6_num"]), ("Value", ["Q7_num"]), ("Engagement", ["Q8_num"]),
   ("Overall Satisfaction", ["Q11_num"])]

/-- Running (sum, count) over all rows and all listed columns, counting only
cells whose `parseFloat` is not `NaN` — the accumulation shared by
`calculateGroupedAverages` and `calculateAverageResponse`. -/
def groupSumCount (data : List Record) (cols : List String) : ℚ × ℕ :=
  data.foldl (fun acc row =>
    cols.foldl (fun acc2 col =>
      match parseFloatField (getField row col) with
      | some v => (acc2.1 + v, acc2.2 + 1)
      | none => acc2) acc) (0, 0)

/-- `calculateGroupedAverages` (grouped-averages.js): per group, the mean of
all parseable cells of the group's columns over all rows; `0` when the
group has no parseable cell. -/
def calculateGroupedAverages (data : List Record) : List (String × ℚ) :=
  QUESTION_GROUPS.map (fun g =>
    (g.1,
     let sc := groupSumCount data g.2
     if 0 < sc.2 then sc.1 / (sc.2 : ℚ) else 0))

/-- `calculateAverageResponse` (KPI module): mean over all `NUM_COLUMNS`
cells that parse; `0` for an empty dataset or when nothing parses. -/
def calculateAverageResponse (data : List Record) : ℚ :=
  if data = [] then 0
  else
    (let sc := groupSumCount data NUM_COLUMNS
     if 0 < sc.2 then sc.1 / (sc.2 : ℚ) else 0)

/-- `averages[groupName]` on the object produced by
`calculateGroupedAverages` (always present for configured groups;
default 0 keeps the lookup total). -/
def lookupGroup (avgs : List (String × ℚ)) (g : String) : ℚ :=
  ((avgs.find? (fun p => p.1 == g)).map (fun p => p.2)).getD 0

/-- `Math.round(q * 10) / 10` — JS `Math.round` is `⌊x + 1/2⌋`
(half rounds toward positive infinity). -/
def jsRound1 (q : ℚ) : ℚ := ((⌊q * 10 + 1 / 2⌋ : ℤ) : ℚ) / 10

/-- `getComparisonModeColorClass` (identical in the KPI module and in
`grouped-averages.js`): neutral for at most one item, else green on the
maximum, red on the minimum (max checked first), neutral in between. -/
def getComparisonModeColorClass (value minValue maxValue : ℚ) (itemCount : ℕ) : String :=
  if itemCount ≤ 1 then "score-neutral"
  else if value = maxValue then "score-green"
  else if value = minValue then "score-red"
  else "score-neutral"

/-- `data.filter(row => row[col] === v)` — the single-value predicate used
for each comparison item (`row.Role === roleData.csvValue`, and the same
with `Location`).  A missing field never equals a string. -/
def filterByColumn (data : List Record) (col v : String) : List Record :=
  data.filter (fun row => getField row col == some v)

/-- One element of the array returned by `getSelectedComparisonItems`:
the DOM-independent payload `{csvValue, count, average, totalAverage}`
(`displayName` is pure widget text resolved from the drawer options and is
not modelled). -/
structure ComparisonItem where
  csvValue : String
  count : ℕ
  average : ℚ
  totalAverage : ℚ
deriving DecidableEq, Repr

/-- `getSelectedComparisonItems` (KPI module), after the DOM select has been
resolved to a list of raw column values `selected`, for comparison column
`col` (`"Role"` in roles mode, `"Location"` in location mode): truncate to
the first 5 values, and for each build the filtered subset, its length,
and its average rounded via `Math.round(avg * 10) / 10`. -/
def getSelectedComparisonItems (data : List Record) (col : String) (selected : List String) :
    List ComparisonItem :=
  (selected.take 5).map (fun v =>
    { csvValue := v
      count := (filterByColumn data col v).length
      average := jsRound1 (calculateAverageResponse (filterByColumn data col v))
      totalAverage := calculateAverageResponse data })

/-- `Math.min(...l)` for the nonempty lists this code applies it to
(`Math.min()` of no arguments would be `+Infinity`; never reached here). -/
def jsMin : List ℚ → ℚ
  | [] => 0
  | x :: xs => xs.foldl min x

/-- `Math.max(...l)`, same remarks as `jsMin`. -/
def jsMax : List ℚ → ℚ
  | [] => 0
  | x :: xs => xs.foldl max x

/-- The color classes assigned by `createComparisonModeKPIHTML` to the
comparison cards: each card's (rounded) `item.average` is classified
against the minimum and maximum of all the cards' (rounded) averages. -/
def kpiComparisonColors (items : List ComparisonItem) : List String :=
  items.map (fun it =>
    getComparisonModeColorClass it.average
      (jsMin (items.map (fun i => i.average)))
      (jsMax (items.map (fun i => i.average)))
      items.length)

/-- `allRoleAverages` / `allLocationAverages` in
`updateGroupedAveragesTable`: the full-precision grouped averages of every
limited selection's filtered subset — including selections whose subset is
empty. -/
def comparisonAllAverages (data : List Record) (col : String) (selected : List String) :
    List (List (String × ℚ)) :=
  ((getSelectedComparisonItems data col selected).take 5).map
    (fun it => calculateGroupedAverages (filterByColumn data col it.csvValue))

/-- `coloringData.allAverages.map(item => item[groupName])` — one column of
the comparison coloring matrix. -/
def groupColumnValues (allAvgs : List (List (String × ℚ))) (g : String) : List ℚ :=
  allAvgs.map (fun avgs => lookupGroup avgs g)

/-- The cells `createTableRow` produces for one row in comparison mode:
per group the full-precision average and the color class obtained from the
column's minimum/maximum over `allAvgs` (display applies `toFixed(1)` to
the average; the classification input is unrounded). -/
def rowCells (avgs : List (String × ℚ)) (allAvgs : List (List (String × ℚ)))
    (itemCount : ℕ) : List (String × ℚ × String) :=
  QUESTION_GROUPS.map (fun gp =>
    (gp.1, lookupGroup avgs gp.1,
     getComparisonModeColorClass (lookupGroup avgs gp.1)
       (jsMin (groupColumnValues allAvgs gp.1))
       (jsMax (groupColumnValues allAvgs gp.1))
       itemCount))

/-- The rows `updateGroupedAveragesTable` appends in roles/location
comparison mode: the selected items are truncated to 5 (`slice(0, 5)` —
on top of the same truncation already done by
`getSelectedComparisonItems`), the coloring matrix is computed for all of
them, and a row is rendered only when the item's filtered subset is
nonempty, keyed here by the item's `csvValue`. -/
def comparisonTableRows (data : List Record) (col : String) (selected : List String) :
    List (String × List (String × ℚ × String)) :=
  let limited := (getSelectedComparisonItems data col selected).take 5
  let allAvgs := limited.map (fun it => calculateGroupedAverages (filterByColumn data col it.csvValue))
  (limited.zip allAvgs).filterMap (fun p =>
    if filterByColumn data col p.1.csvValue = [] then none
    else some (p.1.csvValue, rowCells p.2 allAvgs limited.length))

/-- The filter object built by the UI (`getCurrentFiltersForCsv`); the
baseline capture in `updateGroupedAveragesTable` never reads it, which the
state-transition model makes explicit. -/
structure FilterSpec where
  roleMode : String
  locationMode : String
  selectedRoles : List String
  selectedLocations : List String
deriving DecidableEq, Repr

/-- The module-level mutable bindings of `grouped-averages.js` —
`let baselineAverages = {}` and `let isTableInitialized = false` — the only
shared state the aggregation module writes. -/
structure TableState where
  baselineAverages : List (String × ℚ)
  isTableInitialized : Bool
deriving DecidableEq, Repr

/-- The state at script load. -/
def initialTableState : TableState :=
  { baselineAverages := [], isTableInitialized := false }

/-- The state transition of one `updateGroupedAveragesTable(filters)` call:
if no data is loaded the function returns early (before the capture);
otherwise `currentBaseline` is computed from all records and stored only
when `isTableInitialized` is still false.  Nothing else in the function
writes shared state, and the capture reads neither `filters` nor the
comparison mode. -/
def updateStep (s : TableState) (data : List Record) (_filters : FilterSpec) : TableState :=
  if data = [] then s
  else if s.isTableInitialized then s
  else { baselineAverages := calculateGroupedAverages data, isTableInitialized := true }

/-- Fuelled worker for `String.prototype.split` with a nonempty separator;
`fuel = length of the remaining input` suffices because every step consumes
at least one character. -/
def jsSplitGo (pat : List Char) : ℕ → List Char → List Char → List (List Char)
  | _, acc, [] => [acc.reverse]
  | 0, acc, s => [acc.reverse ++ s]
  | fuel + 1, acc, c :: rest =>
    if pat.isPrefixOf (c :: rest) then
      acc.reverse :: jsSplitGo pat fuel [] (List.drop pat.length (c :: rest))
    else jsSplitGo pat fuel (c :: acc) rest

/-- JS `s.split(pat)` for a nonempty separator `pat` (every separator this
code splits on is nonempty). -/
def jsSplit (s pat : String) : List String :=
  (jsSplitGo pat.data s.data.length [] s.data).map String.mk

/-- JS `s.includes(sub)` for nonempty `sub`: some split occurred. -/
def strIncludes (s sub : String) : Bool := decide (1 < (jsSplit s sub).length)

/-- The `breakPatterns` priority list of `breakCategoryName` (charts.js). -/
def breakPatterns : List String :=
  [" & ", " and ", " - ", " / ", " or ", " with ", " at ", " of ", " in "]

/-- The delimiter re-attachment of `breakCategoryName`: the symbol (with its
leading space, without the trailing one) for `&`, `and`, `-`, `/`; the whole
pattern — trailing space included — for the word patterns. -/
def patternSymbolAttach (p0 pat : String) : String :=
  if strIncludes pat "&" then p0 ++ " &"
  else if strIncludes pat "and" then p0 ++ " and"
  else if strIncludes pat "-" then p0 ++ " -"
  else if strIncludes pat "/" then p0 ++ " /"
  else p0 ++ pat

/-- The `for (const pattern of breakPatterns)` loop: the first pattern that
occurs in `s` *and* splits it into exactly two parts wins (a pattern that
occurs more than once yields more than two parts and the loop moves on). -/
def tryBreakPatterns (s : String) : List String → Option (List String)
  | [] => none
  | pat :: rest =>
    if strIncludes s pat then
      match jsSplit s pat with
      | [a, b] => some [patternSymbolAttach a pat, b]
      | _ => tryBreakPatterns s rest
    else tryBreakPatterns s rest

/-- `words.slice(i).join(' ')`. -/
def joinSpace : List String → String
  | [] => ""
  | [w] => w
  | w :: ws => w ++ " " ++ joinSpace ws

/-- The word-packing loop of `breakCategoryName`: a word is taken while
`firstLine.length + word.length + 1 <= 18` — note the `+ 1` is charged even
for the first word (when no separating space is prepended), so a first word
longer than 17 characters never fits and the first line stays empty. -/
def greedyPack : List String → String → String × String
  | [], first => (first, "")
  | w :: ws, first =>
    if first.data.length + w.data.length + 1 ≤ 18 then
      greedyPack ws (if first = "" then w else first ++ " " ++ w)
    else (first, joinSpace (w :: ws))

/-- `breakCategoryName` (charts.js): labels of up to 15 characters pass
through; longer ones go through the fixed lookup (on the trimmed name),
then the delimiter loop, then — above 20 characters — the word-packing
split, else unchanged.  Lengths are measured on the raw label, as in the
source. -/
def breakCategoryName (categoryName : String) : List String :=
  if categoryName = "" ∨ categoryName.data.length ≤ 15 then [categoryName]
  else
    let trimmedName := jsTrim categoryName
    if trimmedName = "Physical Environment" then ["Physical", "Environment"]
    else if trimmedName = "Heavy Workload" then ["Heavy", "Workload"]
    else if trimmedName = "General Comments" then ["General", "Comments"]
    else if trimmedName = "Leadership Comments" then ["Leadership", "Comments"]
    else if trimmedName = "Communication Issues" then ["Communication", "Issues"]
    else if trimmedName = "Interpersonal Issues" then ["Interpersonal", "Issues"]
    else if trimmedName = "Work-Life Balance" then ["Work-Life", "Balance"]
    else if trimmedName = "No Response" then ["No", "Response"]
    else
      match tryBreakPatterns categoryName breakPatterns with
      | some lines => lines
      | none =>
        if 20 < categoryName.data.length then
          (let fs := greedyPack (jsSplit categoryName " ") ""
           if fs.2 = "" then [categoryName] else [fs.1, fs.2])
        else [categoryName]

/-- The fixed lookup table of known long labels (spec §4.3, step (1)),
as the spec presents it: a table of exact labels and their hand-chosen
two-line breaks. -/
def knownLabelBreaks : List (String × List String) :=
  [("Physical Environment", ["Physical", "Environment"]),
   ("Heavy Workload", ["Heavy", "Workload"]),
   ("General Comments", ["General", "Comments"]),
   ("Leadership Comments", ["Leadership", "Comments"]),
   ("Communication Issues", ["Communication", "Issues"]),
   ("Interpersonal Issues", ["Interpersonal", "Issues"]),
   ("Work-Life Balance", ["Work-Life", "Balance"]),
   ("No Response", ["No", "Response"])]

/-- First-match lookup in the table. -/
def lookupBreak : List (String × List String) → String → Option (List String)
  | [], _ => none
  | e :: rest, s => if s = e.1 then some e.2 else lookupBreak rest s

/-- Spec §4.3 step (2): «the first matching delimiter from a
priority-ordered list splitting into exactly two parts, reattaching the
delimiter (or its symbol) to the end of the first part». -/
def specFirstDelimiter (s : String) : List String → Option (List String)
  | [] => none
  | d :: rest =>
    match jsSplit s d with
    | [a, b] => some [patternSymbolAttach a d, b]
    | _ => specFirstDelimiter s rest

/-- Spec §4.3 step (3) read literally: «greedily pack words into a first
line up to 18 characters» — a word fits while the resulting line stays
within 18 characters (a separating space is charged only when the line is
nonempty). -/
def specGreedyPack : List String → String → String × String
  | [], first => (first, "")
  | w :: ws, first =>
    if (if first = "" then w.data.length ≤ 18
        else first.data.length + 1 + w.data.length ≤ 18) then
      specGreedyPack ws (if first = "" then w else first ++ " " ++ w)
    else (first, joinSpace (w :: ws))

/-- The label segmentation exactly as the claim states it: unchanged up to
15 characters, then lookup table, then first delimiter giving exactly two
parts, then — above 20 characters — greedy word-packing of a first line of
up to 18 characters with the remainder as the second line, else unchanged. -/
def specSegmentLabel (label : String) : List String :=
  if label.data.length ≤ 15 then [label]
  else
    match lookupBreak knownLabelBreaks (jsTrim label) with
    | some lines => lines
    | none =>
      match specFirstDelimiter label breakPatterns with
      | some lines => lines
      | none =>
        if 20 < label.data.length then
          (let fs := specGreedyPack (jsSplit label " ") ""
           if fs.2 = "" then [label] else [fs.1, fs.2])
        else [label]

/-- The claim's description amended exactly where the counterexample forces
it: the greedy packing charges the separating space even before the first
word (`line.length + word.length + 1 ≤ 18`), so a first word longer than 17
characters leaves the first line empty with the whole remainder as the
second line.  Everything else is as in `specSegmentLabel`. -/
def specSegmentLabelAmended (label : String) : List String :=
  if label.data.length ≤ 15 then [label]
  else
    match lookupBreak knownLabelBreaks (jsTrim label) with
    | some lines => lines
    | none =>
      match specFirstDelimiter label breakPatterns with
      | some lines => lines
      | none =>
        if 20 < label.data.length then
          (let fs := greedyPack (jsSplit label " ") ""
           if fs.2 = "" then [label] else [fs.1, fs.2])
        else [label]

/-! ## Helper lemmas -/

lemma foldl_max_const (value : ℚ) :
    ∀ (xs : List ℚ) (x : ℚ), x = value → (∀ p ∈ xs, p = value) → xs.foldl max x = value := by
  intro xs
  induction xs with
  | nil => intro x hx _; simpa using hx
  | cons y ys ih =>
    intro x hx hall
    simp only [List.foldl_cons]
    exact ih (max x y) (by rw [hx, hall y (by simp)]; exact max_self value)
      (fun p hp => hall p (by simp [hp]))

lemma colsFoldl_all_none (row : Record) :
    ∀ (cols : List String),
      (∀ col ∈ cols, parseFloatField (getField row col) = none) →
      ∀ acc2 : ℚ × ℕ,
        cols.foldl (fun acc2 col =>
          match parseFloatField (getField row col) with
          | some v => (acc2.1 + v, acc2.2 + 1)
          | none => acc2) acc2 = acc2 := by
  intro cols
  induction cols with
  | nil => intro _ acc2; rfl
  | cons c cs ihc =>
    intro hr acc2
    simp only [List.foldl_cons]
    rw [hr c (by simp)]
    exact ihc (fun col hc => hr col (by simp [hc])) acc2

lemma groupSumCount_all_none (data : List Record) (cols : List String)
    (h : ∀ row ∈ data, ∀ col ∈ cols, parseFloatField (getField row col) = none) :
    groupSumCount data cols = (0, 0) := by
  unfold groupSumCount
  suffices hgen : ∀ acc : ℚ × ℕ,
      data.foldl (fun acc row =>
        cols.foldl (fun acc2 col =>
          match parseFloatField (getField row col) with
          | some v => (acc2.1 + v, acc2.2 + 1)
          | none => acc2) acc) acc = acc by
    exact hgen (0, 0)
  induction data with
  | nil => intro acc; rfl
  | cons row rest ih =>
    intro acc
    simp only [List.foldl_cons]
    rw [colsFoldl_all_none row cols (h row (by simp)) acc]
    exact ih (fun r hr => h r (by simp [hr])) acc

lemma updateStep_of_initialized (s : TableState) (data : List Record) (f : FilterSpec)
    (h : s.isTableInitialized = true) : updateStep s data f = s := by
  simp [updateStep, h]

lemma foldl_updateStep_of_initialized (calls : List (List Record × FilterSpec)) :
    ∀ s : TableState, s.isTableInitialized = true →
      calls.foldl (fun s c => updateStep s c.1 c.2) s = s := by
  induction calls with
  | nil => intro s _; rfl
  | cons c rest ih =>
    intro s hs
    simp only [List.foldl_cons]
    rw [updateStep_of_initialized s c.1 c.2 hs]
    exact ih s hs

/-! ## Claim theorems -/

/-- Claim C3: the peer-relative classifier returns neutral for a singleton
peer set regardless of the value; a larger peer set classifies the value
green when it equals the peers' maximum, else red when it equals the
peers' minimum, else neutral; and — because the max-check precedes the
min-check — every item of a multi-item peer set whose values are all equal
classifies green (max). -/
theorem c3_peer_relative_classifier (value : ℚ) (peers : List ℚ) (hne : peers ≠ []) :
    (peers.length = 1 →
      getComparisonModeColorClass value (jsMin peers) (jsMax peers) peers.length =
        "score-neutral")
    ∧ (1 < peers.length →
      getComparisonModeColorClass value (jsMin peers) (jsMax peers) peers.length =
        if value = jsMax peers then "score-green"
        else if value = jsMin peers then "score-red"
        else "score-neutral")
    ∧ (1 < peers.length → (∀ p ∈ peers, p = value) →
      getComparisonModeColorClass value (jsMin peers) (jsMax peers) peers.length =
        "score-green") := by
  refine ⟨fun h1 => ?_, fun h2 => ?_, fun h2 hall => ?_⟩
  · simp [getComparisonModeColorClass, h1]
  · simp [getComparisonModeColorClass, Nat.not_le_of_lt h2]
  · have hmax : jsMax peers = value := by
      match peers, hne with
      | x :: xs, _ =>
        exact foldl_max_const value xs x (hall x (by simp)) (fun p hp => hall p (by simp [hp]))
    simp [getComparisonModeColorClass, Nat.not_le_of_lt h2, hmax]

theorem c3_witness :
    getComparisonModeColorClass 5 (jsMin [7]) (jsMax [7]) 1 = "score-neutral"
    ∧ getComparisonModeColorClass 4 (jsMin [4, 4, 4]) (jsMax [4, 4, 4]) 3 = "score-green" :=
  ⟨(c3_peer_relative_classifier 5 [7] (by decide)).1 (by decide),
   (c3_peer_relative_classifier 4 [4, 4, 4] (by decide)).2.2 (by decide) (by decide)⟩

/-- Claim C6: for every record subset and every question group, if that
group's columns have zero parseable values over the subset — the other
groups may well be populated — the aggregator returns `0` as that group's
average (never `NaN`/`undefined`; totality of the Lean functions models
the absence of exceptions); on the empty subset every group average and
the scalar KPI average are `0`. -/
theorem c6_zero_eligible_average_zero (data : List Record) (g : String × List String)
    (hg : g ∈ QUESTION_GROUPS)
    (h : ∀ row ∈ data, ∀ col ∈ g.2, parseFloatField (getField row col) = none) :
    lookupGroup (calculateGroupedAverages data) g.1 = 0
    ∧ (∀ p ∈ calculateGroupedAverages data, p.1 = g.1 → p.2 = 0)
    ∧ (∀ p ∈ calculateGroupedAverages [], p.2 = 0)
    ∧ calculateAverageResponse [] = 0 := by
  have huniq : ∀ a ∈ QUESTION_GROUPS, ∀ b ∈ QUESTION_GROUPS, a.1 = b.1 → a = b := by decide
  have hall : ∀ p ∈ calculateGroupedAverages data, p.1 = g.1 → p.2 = 0 := by
    intro p hp hname
    unfold calculateGroupedAverages at hp
    obtain ⟨g', hg', hgp⟩ := List.mem_map.1 hp
    have hname' : g'.1 = g.1 := by rw [← hgp] at hname; exact hname
    have hgg : g' = g := huniq g' hg' g hg hname'
    subst hgg
    rw [← hgp]
    dsimp only
    rw [groupSumCount_all_none data g'.2 h]
    simp
  refine ⟨?_, hall, ?_, ?_⟩
  · unfold lookupGroup
    rcases hf : (calculateGroupedAverages data).find? (fun p => p.1 == g.1) with _ | p
    · rw [hf]
      rfl
    · rw [hf]
      have hp := List.mem_of_find?_eq_some hf
      have hpred := List.find?_some hf
      simp [hall p hp (by simpa using hpred)]
  · intro p hp
    unfold calculateGroupedAverages at hp
    obtain ⟨g', _, hgp⟩ := List.mem_map.1 hp
    rw [← hgp]
    rfl
  · rfl

theorem c6_witness :
    lookupGroup (calculateGroupedAverages [[("Q3_num", "n/a"), ("Q4_num", "5")]]) "Trust" = 0 :=
  (c6_zero_eligible_average_zero [[("Q3_num", "n/a"), ("Q4_num", "5")]]
    ("Trust", ["Q3_num"]) (by decide) (by decide)).1

/-- Claim C7: with more than 5 selected values, both the comparison-item
resolver and the grouped-averages table depend only on the first 5 — the
items are exactly those of the truncated selection (so aggregation never
reads a record on behalf of the 6th or later value), the items carry the
first 5 values in order, and exactly 5 items are produced. -/
theorem c7_cap_at_five (data : List Record) (col : String) (selected : List String)
    (h : 5 < selected.length) :
    getSelectedComparisonItems data col selected =
      getSelectedComparisonItems data col (selected.take 5)
    ∧ (getSelectedComparisonItems data col selected).map (fun it => it.csvValue) =
      selected.take 5
    ∧ (getSelectedComparisonItems data col selected).length = 5
    ∧ comparisonTableRows data col selected = comparisonTableRows data col (selected.take 5) := by
  have h1 : getSelectedComparisonItems data col selected =
      getSelectedComparisonItems data col (selected.take 5) := by
    simp [getSelectedComparisonItems, List.take_take]
  refine ⟨h1, ?_, ?_, ?_⟩
  · unfold getSelectedComparisonItems
    rw [List.map_map]
    exact List.map_id'' (fun x => rfl) _
  · simp only [getSelectedComparisonItems, List.length_map, List.length_take]
    omega
  · unfold comparisonTableRows
    rw [h1]

theorem c7_witness :
    (getSelectedComparisonItems [] "Role" ["A", "B", "C", "D", "E", "F"]).length = 5
    ∧ (getSelectedComparisonItems [] "Role" ["A", "B", "C", "D", "E", "F"]).map
        (fun it => it.csvValue) = ["A", "B", "C", "D", "E"] :=
  ⟨(c7_cap_at_five [] "Role" ["A", "B", "C", "D", "E", "F"] (by decide)).2.2.1,
   (c7_cap_at_five [] "Role" ["A", "B", "C", "D", "E", "F"] (by decide)).2.1⟩

/-- Claim C8: starting from the module's initial state, the first
`updateGroupedAveragesTable` call that sees loaded (nonempty) data captures
the baseline grouped averages of that data, and no later call — whatever
its data or filters — ever changes the captured state again; calls made
before data is loaded leave the state untouched.  The modelled state holds
the module's only mutable bindings (`baselineAverages`,
`isTableInitialized`). -/
theorem c8_baseline_captured_once (d : List Record) (f : FilterSpec)
    (calls : List (List Record × FilterSpec)) (hd : d ≠ []) :
    (calls.foldl (fun s c => updateStep s c.1 c.2)
      (updateStep initialTableState d f)).baselineAverages = calculateGroupedAverages d
    ∧ (calls.foldl (fun s c => updateStep s c.1 c.2)
      (updateStep initialTableState d f)).isTableInitialized = true
    ∧ updateStep initialTableState d f =
      { baselineAverages := calculateGroupedAverages d, isTableInitialized := true }
    ∧ (∀ g : FilterSpec, updateStep initialTableState [] g = initialTableState) := by
  have hstep : updateStep initialTableState d f =
      { baselineAverages := calculateGroupedAverages d, isTableInitialized := true } := by
    simp [updateStep, initialTableState, hd]
  have hfold := foldl_updateStep_of_initialized calls (updateStep initialTableState d f)
    (by rw [hstep])
  refine ⟨?_, ?_, hstep, fun g => by simp [updateStep, initialTableState]⟩
  · rw [hfold, hstep]
  · rw [hfold, hstep]

theorem c8_witness :
    (List.foldl (fun s c => updateStep s c.1 c.2)
      (updateStep initialTableState [[("Q3_num", "4")]]
        ⟨"all", "all", [], []⟩)
      [([[("Q3_num", "9")]], ⟨"compare", "all", ["X"], []⟩), ([], ⟨"all", "all", [], []⟩)]
      ).baselineAverages = calculateGroupedAverages [[("Q3_num", "4")]] :=
  (c8_baseline_captured_once [[("Q3_num", "4")]] ⟨"all", "all", [], []⟩
    [([[("Q3_num", "9")]], ⟨"compare", "all", ["X"], []⟩), ([], ⟨"all", "all", [], []⟩)]
    (by decide)).1

lemma foldl_min_le_init : ∀ (ys : List ℚ) (a : ℚ), ys.foldl min a ≤ a := by
  intro ys
  induction ys with
  | nil => intro a; simp
  | cons y ys ih =>
    intro a
    simp only [List.foldl_cons]
    exact le_trans (ih (min a y)) (min_le_left a y)

lemma foldl_min_le_mem : ∀ (ys : List ℚ) (a q : ℚ), q ∈ ys → ys.foldl min a ≤ q := by
  intro ys
  induction ys with
  | nil => intro a q hq; simp at hq
  | cons y ys ih =>
    intro a q hq
    simp only [List.foldl_cons]
    rcases List.mem_cons.1 hq with h | h
    · rw [h]
      exact le_trans (foldl_min_le_init ys (min a y)) (min_le_right a y)
    · exact ih (min a y) q h

lemma le_foldl_min : ∀ (ys : List ℚ) (a b : ℚ), b ≤ a → (∀ p ∈ ys, b ≤ p) →
    b ≤ ys.foldl min a := by
  intro ys
  induction ys with
  | nil => intro a b hb _; simpa using hb
  | cons y ys ih =>
    intro a b hb hall
    simp only [List.foldl_cons]
    exact ih (min a y) b (le_min hb (hall y (by simp))) (fun p hp => hall p (by simp [hp]))

/-- Claim C2 counterexample: with records
`{Role: "A", Q3_num: "1.01"}` and `{Role: "B", Q3_num: "1.04"}` both
comparison items store the rounded average `1` — not the full-precision
averages `1.01` and `1.04` — and the KPI peer coloring, which compares the
stored (rounded) averages, paints both cards green, whereas classifying the
full-precision averages would paint A red and B green.  So the per-item
averages compared for peer-relative coloring of Comparison Items are
rounded, not full precision. -/
theorem c2_counterexample :
    (getSelectedComparisonItems
        [[("Role", "A"), ("Q3_num", "1.01")], [("Role", "B"), ("Q3_num", "1.04")]]
        "Role" ["A", "B"]).map (fun it => it.average) = [1, 1]
    ∧ calculateAverageResponse (filterByColumn
        [[("Role", "A"), ("Q3_num", "1.01")], [("Role", "B"), ("Q3_num", "1.04")]]
        "Role" "A") = 101 / 100
    ∧ calculateAverageResponse (filterByColumn
        [[("Role", "A"), ("Q3_num", "1.01")], [("Role", "B"), ("Q3_num", "1.04")]]
        "Role" "B") = 104 / 100
    ∧ (1 : ℚ) ≠ 101 / 100
    ∧ kpiComparisonColors (getSelectedComparisonItems
        [[("Role", "A"), ("Q3_num", "1.01")], [("Role", "B"), ("Q3_num", "1.04")]]
        "Role" ["A", "B"]) = ["score-green", "score-green"]
    ∧ [getComparisonModeColorClass (101 / 100) (jsMin [101 / 100, 104 / 100])
         (jsMax [101 / 100, 104 / 100]) 2,
       getComparisonModeColorClass (104 / 100) (jsMin [101 / 100, 104 / 100])
         (jsMax [101 / 100, 104 / 100]) 2] = ["score-red", "score-green"] := by
  with_unfolding_all decide

/-- Claim C2 amended: every comparison item stores its average already
rounded to one decimal (`Math.round(avg * 10) / 10`, half toward positive
infinity), and the KPI peer-relative coloring compares those rounded
values; the grouped-averages table, by contrast, keeps full precision for
its peer coloring (rounding there is only the `toFixed(1)` display) — on
the 1.01/1.04 dataset the table colors A red and B green while the KPI
cards are both green. -/
theorem c2_rounding_boundaries :
    (∀ (data : List Record) (col : String) (selected : List String)
       (it : ComparisonItem), it ∈ getSelectedComparisonItems data col selected →
       it.average = jsRound1 (calculateAverageResponse (filterByColumn data col it.csvValue))
       ∧ it.totalAverage = calculateAverageResponse data)
    ∧ (comparisonTableRows
        [[("Role", "A"), ("Q3_num", "1.01")], [("Role", "B"), ("Q3_num", "1.04")]]
        "Role" ["A", "B"]).map (fun r =>
          (r.1, (r.2.filter (fun c => c.1 == "Trust")).map (fun c => c.2.2))) =
        [("A", ["score-red"]), ("B", ["score-green"])]
    ∧ kpiComparisonColors (getSelectedComparisonItems
        [[("Role", "A"), ("Q3_num", "1.01")], [("Role", "B"), ("Q3_num", "1.04")]]
        "Role" ["A", "B"]) = ["score-green", "score-green"] := by
  refine ⟨?_, by with_unfolding_all decide, by with_unfolding_all decide⟩
  intro data col selected it hit
  unfold getSelectedComparisonItems at hit
  obtain ⟨v, _, hv⟩ := List.mem_map.1 hit
  rw [← hv]
  exact ⟨rfl, rfl⟩

theorem c2_witness :
    ({ csvValue := "A", count := 1, average := 1, totalAverage := 101 / 100 } :
        ComparisonItem).average =
      jsRound1 (calculateAverageResponse
        (filterByColumn [[("Role", "A"), ("Q3_num", "1.01")]] "Role" "A")) :=
  (c2_rounding_boundaries.1 [[("Role", "A"), ("Q3_num", "1.01")]] "Role" ["A"]
    { csvValue := "A", count := 1, average := 1, totalAverage := 101 / 100 }
    (by with_unfolding_all decide)).1

/-- Claim C10: a selected value whose filtered subset is empty produces no
table row, yet the all-zero grouped averages of the empty subset are part
of the coloring matrix, so every group column contains the value 0; a list
of nonnegative values containing 0 has minimum 0; and concretely, with
records `{Role: "A", Q3_num: "2"}`, `{Role: "B", Q3_num: "3"}`, selecting
`["A","B"]` colors A's Trust cell red, while selecting `["A","B","C"]`
(role C matches nothing) renders no C row but turns A's Trust cell
neutral — the zero-match selection changed which rendered row is the
column minimum. -/
theorem c10_zero_match_selection :
    (∀ (data : List Record) (col : String) (selected : List String) (v : String),
      filterByColumn data col v = [] →
      ∀ row ∈ comparisonTableRows data col selected, row.1 ≠ v)
    ∧ (∀ (data : List Record) (col : String) (selected : List String) (v : String),
      v ∈ selected.take 5 → filterByColumn data col v = [] →
      calculateGroupedAverages [] ∈ comparisonAllAverages data col selected
      ∧ ∀ g ∈ QUESTION_GROUPS,
          (0 : ℚ) ∈ groupColumnValues (comparisonAllAverages data col selected) g.1)
    ∧ (∀ l : List ℚ, (0 : ℚ) ∈ l → (∀ q ∈ l, 0 ≤ q) → jsMin l = 0)
    ∧ (comparisonTableRows [[("Role", "A"), ("Q3_num", "2")], [("Role", "B"), ("Q3_num", "3")]]
        "Role" ["A", "B"]).map (fun r =>
          (r.1, (r.2.filter (fun c => c.1 == "Trust")).map (fun c => c.2.2))) =
        [("A", ["score-red"]), ("B", ["score-green"])]
    ∧ (comparisonTableRows [[("Role", "A"), ("Q3_num", "2")], [("Role", "B"), ("Q3_num", "3")]]
        "Role" ["A", "B", "C"]).map (fun r =>
          (r.1, (r.2.filter (fun c => c.1 == "Trust")).map (fun c => c.2.2))) =
        [("A", ["score-neutral"]), ("B", ["score-green"])]
    ∧ (comparisonTableRows [[("Role", "A"), ("Q3_num", "2")], [("Role", "B"), ("Q3_num", "3")]]
        "Role" ["A", "B", "C"]).map (fun r => r.1) = ["A", "B"] := by
  refine ⟨?_, ?_, ?_, by with_unfolding_all decide, by with_unfolding_all decide,
    by with_unfolding_all decide⟩
  · intro data col selected v hempty row hrow
    unfold comparisonTableRows at hrow
    obtain ⟨p, hp, hfp⟩ := List.mem_filterMap.1 hrow
    by_cases hguard : filterByColumn data col p.1.csvValue = []
    · rw [if_pos hguard] at hfp
      exact absurd hfp (by simp)
    · rw [if_neg hguard] at hfp
      intro hname
      apply hguard
      have : row.1 = p.1.csvValue := by rw [← Option.some_inj.1 hfp]
      rw [← this, hname]
      exact hempty
  · intro data col selected v hv hempty
    have hlen : ((selected.take 5).map (fun v =>
        ({ csvValue := v, count := (filterByColumn data col v).length,
           average := jsRound1 (calculateAverageResponse (filterByColumn data col v)),
           totalAverage := calculateAverageResponse data } : ComparisonItem))).length ≤ 5 := by
      simp only [List.length_map, List.length_take]
      omega
    have hitem : (⟨v, (filterByColumn data col v).length,
        jsRound1 (calculateAverageResponse (filterByColumn data col v)),
        calculateAverageResponse data⟩ : ComparisonItem) ∈
        (getSelectedComparisonItems data col selected).take 5 := by
      unfold getSelectedComparisonItems
      rw [List.take_of_length_le hlen]
      exact List.mem_map.2 ⟨v, hv, rfl⟩
    have hmem : calculateGroupedAverages [] ∈ comparisonAllAverages data col selected := by
      unfold comparisonAllAverages
      refine List.mem_map.2 ⟨_, hitem, ?_⟩
      simp only [hempty]
    refine ⟨hmem, fun g hg => ?_⟩
    have hz : lookupGroup (calculateGroupedAverages []) g.1 = 0 := by
      revert hg
      revert g
      decide
    exact List.mem_map.2 ⟨calculateGroupedAverages [], hmem, hz⟩
  · intro l h0 hall
    exact le_antisymm
      (by
        match l, h0 with
        | x :: xs, h0 =>
          rcases List.mem_cons.1 h0 with h | h
          · exact h ▸ foldl_min_le_init xs x
          · exact foldl_min_le_mem xs x 0 h)
      (by
        match l, h0 with
        | x :: xs, h0 =>
          exact le_foldl_min xs x 0 (hall x (by simp)) (fun p hp => hall p (by simp [hp])))

theorem c10_witness : jsMin [2, 0, 5] = 0 :=
  c10_zero_match_selection.2.2.1 [2, 0, 5] (by decide) (by decide)

lemma digitsAux_not_digit (c : Char) (rest : List Char) (acc n : ℕ)
    (hc : c.isDigit = false) : digitsAux (c :: rest) acc n = (acc, n, c :: rest) := by
  simp [digitsAux, hc]

lemma digitsAux_digit (c : Char) (rest : List Char) (acc n : ℕ)
    (hc : c.isDigit = true) :
    digitsAux (c :: rest) acc n = digitsAux rest (10 * acc + (c.toNat - 48)) (n + 1) := by
  simp [digitsAux, hc]

lemma digitsAux_count_le : ∀ (cs : List Char) (acc n : ℕ), n ≤ (digitsAux cs acc n).2.1 := by
  intro cs
  induction cs with
  | nil => intro acc n; exact Nat.le_refl n
  | cons c rest ih =>
    intro acc n
    by_cases hc : c.isDigit
    · rw [digitsAux_digit c rest acc n hc]
      exact Nat.le_trans (Nat.le_succ n) (ih _ (n + 1))
    · rw [digitsAux_not_digit c rest acc n (by simpa using hc)]

lemma digitsAux_pos_iff (cs : List Char) :
    0 < (digitsAux cs 0 0).2.1 ↔ headIsDigit cs = true := by
  cases cs with
  | nil => simp [digitsAux, headIsDigit]
  | cons c rest =>
    by_cases hc : c.isDigit
    · rw [digitsAux_digit c rest 0 0 hc]
      simp only [headIsDigit, hc, iff_true]
      exact Nat.lt_of_lt_of_le Nat.zero_lt_one (digitsAux_count_le rest _ 1)
    · rw [digitsAux_not_digit c rest 0 0 (by simpa using hc)]
      simp [headIsDigit, hc]

lemma startsNumeric_eq (t : List Char) :
    startsNumeric t = startsDigitOrDot (splitSign t).2 := by
  cases t with
  | nil => rfl
  | cons c r =>
    by_cases hp : c = '+'
    · simp [startsNumeric, splitSign, hp]
    · by_cases hm : c = '-'
      · simp [startsNumeric, splitSign, hp, hm]
      · simp [startsNumeric, splitSign, hp, hm]

lemma jsParseFloatChars_isSome (cs : List Char) :
    (jsParseFloatChars cs).isSome = startsNumeric (cs.dropWhile jsWhitespaceChar) := by
  simp only [jsParseFloatChars]
  rw [startsNumeric_eq]
  rcases hcs2 : (splitSign (cs.dropWhile jsWhitespaceChar)).2 with _ | ⟨c, r⟩
  · simp [digitsAux, fracPart, startsDigitOrDot]
  · by_cases hdot : c = '.'
    · subst hdot
      rw [digitsAux_not_digit '.' r 0 0 (by decide)]
      by_cases hF : (digitsAux r 0 0).2.1 = 0
      · have hhead : headIsDigit r = false := by
          rw [← Bool.not_eq_true, ← digitsAux_pos_iff]
          omega
        simp [fracPart, startsDigitOrDot, hF, hhead]
      · have hhead : headIsDigit r = true :=
          (digitsAux_pos_iff r).1 (Nat.pos_of_ne_zero hF)
        simp [fracPart, startsDigitOrDot, hF, hhead]
    · by_cases hdig : c.isDigit
      · rw [digitsAux_digit c r 0 0 hdig]
        have hpos : 0 < (digitsAux r (c.toNat - 48) 1).2.1 :=
          Nat.lt_of_lt_of_le Nat.zero_lt_one (digitsAux_count_le r _ 1)
        have hne : (digitsAux r (c.toNat - 48) 1).2.1 +
            (fracPart (digitsAux r (c.toNat - 48) 1).2.2).2.1 ≠ 0 := by omega
        simp [hne, startsDigitOrDot, hdot, hdig]
      · rw [digitsAux_not_digit c r 0 0 (by simpa using hdig)]
        simp [fracPart, hdot, startsDigitOrDot, hdig]

lemma specTail_agrees (sgn : ℚ) (ip nI : ℕ) (rest : List Char) (q : ℚ)
    (h : specTail sgn ip nI rest = some q) :
    ∃ fp nF frest, fracPart rest = (fp, nF, frest)
      ∧ nI + nF ≠ 0
      ∧ sgn * applyPow10 ((ip : ℚ) + (fp : ℚ) / (10 : ℚ) ^ nF) (parseExponentPart frest) = q := by
  rcases rest with _ | ⟨c, r⟩
  · simp only [specTail] at h
    split at h
    · refine ⟨0, 0, [], rfl, by omega, ?_⟩
      have hq := Option.some_inj.1 h
      simp only [applyPow10, parseExponentPart]
      rw [← hq]
      norm_num
    · exact absurd h (by simp)
  · simp only [specTail] at h
    by_cases hc : c = '.'
    · subst hc
      rw [if_pos rfl] at h
      rcases hdf : digitsAux r 0 0 with ⟨fp, nF, frest⟩
      rw [hdf] at h
      split at h
      · rename_i hcond
        dsimp only at h hcond
        obtain ⟨h1, h2, h3⟩ := hcond
        refine ⟨fp, nF, frest, by simp [fracPart, hdf], by omega, ?_⟩
        have hq := Option.some_inj.1 h
        rw [h3]
        simp only [applyPow10, parseExponentPart]
        rw [← hq]
        norm_num
      · exact absurd h (by simp)
    · rw [if_neg hc] at h
      exact absurd h (by simp)

lemma specDecimalParse_subsumed (s : String) (q : ℚ)
    (h : specDecimalParse s = some q) : jsParseFloat s = some q := by
  simp only [specDecimalParse] at h
  simp only [jsParseFloat, jsParseFloatChars]
  obtain ⟨fp, nF, frest, hfrac, hne, hval⟩ := specTail_agrees _ _ _ _ q h
  rw [hfrac]
  dsimp only
  rw [if_neg hne]
  rw [hval]

set_option maxRecDepth 8000 in
/-- Claim C1 counterexample: the cell `"3x"` has non-numeric content and a
standard decimal parse rejects it, but `parseFloat` reads the numeric
prefix and yields `3`, so the aggregator counts the cell (Trust average 3)
instead of treating it as missing; `"1e3"` (neither integer nor plain
decimal) likewise parses as `1000`. -/
theorem c1_counterexample :
    jsParseFloat "3x" = some 3
    ∧ specDecimalParse "3x" = none
    ∧ lookupGroup (calculateGroupedAverages [[("Q3_num", "3x")]]) "Trust" = 3
    ∧ jsParseFloat "1e3" = some 1000
    ∧ specDecimalParse "1e3" = none := by
  with_unfolding_all decide

/-- Claim C1 amended: the per-cell parse skips leading whitespace and then
succeeds exactly when an optionally signed numeric literal starts (a digit,
or a decimal point followed by a digit) — trailing non-numeric content is
ignored rather than causing failure, and exponent notation is accepted;
every string a standard decimal parse accepts is parsed with the same
value; empty, whitespace-only and fully non-numeric cells fail (and are
thus excluded from sum and count). -/
theorem c1_numeric_parse (s : String) (q : ℚ) :
    ((jsParseFloat s).isSome = startsNumeric (s.data.dropWhile jsWhitespaceChar))
    ∧ (specDecimalParse s = some q → jsParseFloat s = some q)
    ∧ jsParseFloat "" = none
    ∧ jsParseFloat "   " = none
    ∧ jsParseFloat "abc" = none
    ∧ jsParseFloat " 12.5" = some (25 / 2)
    ∧ jsParseFloat "3x" = some 3 :=
  ⟨jsParseFloatChars_isSome s.data, specDecimalParse_subsumed s q,
   by with_unfolding_all decide, by with_unfolding_all decide,
   by with_unfolding_all decide, by with_unfolding_all decide,
   by with_unfolding_all decide⟩

theorem c1_witness : jsParseFloat "  7.25" = some (29 / 4) :=
  (c1_numeric_parse "  7.25" (29 / 4)).2.1 (by with_unfolding_all decide)

lemma tryBreak_eq_specFirst (s : String) : ∀ pats : List String,
    tryBreakPatterns s pats = specFirstDelimiter s pats := by
  intro pats
  induction pats with
  | nil => rfl
  | cons pat rest ih =>
    by_cases hinc : strIncludes s pat = true
    · simp only [tryBreakPatterns, specFirstDelimiter, hinc, if_true]
      rcases jsSplit s pat with _ | ⟨a, l⟩
      · exact ih
      · rcases l with _ | ⟨b, l2⟩
        · exact ih
        · rcases l2 with _ | ⟨c, l3⟩
          · rfl
          · exact ih
    · have hinc' : strIncludes s pat = false := by simpa using hinc
      simp only [tryBreakPatterns, specFirstDelimiter, hinc', Bool.false_eq_true, if_false]
      rcases hsp : jsSplit s pat with _ | ⟨a, l⟩
      · exact ih
      · rcases l with _ | ⟨b, l2⟩
        · exact ih
        · rcases l2 with _ | ⟨c, l3⟩
          · exfalso
            rw [strIncludes, hsp] at hinc'
            simp at hinc'
          · exact ih

set_option maxRecDepth 16000 in
/-- Claim C9 counterexample: the label `"ABCDEFGHIJKLMNOPQR xyz"` (22
characters, first word of 18, no known-label entry, no delimiter) should by
the claim's greedy packing put the 18-character word on the first line; the
code's loop charges `word.length + 1 ≤ 18` even for the first word, so the
word does not fit, the first line stays empty and the whole label becomes
the second line. -/
theorem c9_counterexample :
    breakCategoryName "ABCDEFGHIJKLMNOPQR xyz" = ["", "ABCDEFGHIJKLMNOPQR xyz"]
    ∧ specSegmentLabel "ABCDEFGHIJKLMNOPQR xyz" = ["ABCDEFGHIJKLMNOPQR", "xyz"]
    ∧ breakCategoryName "ABCDEFGHIJKLMNOPQR xyz" ≠
        specSegmentLabel "ABCDEFGHIJKLMNOPQR xyz" := by
  decide

lemma breakCategoryName_eq_amended (s : String) :
    breakCategoryName s = specSegmentLabelAmended s := by
  by_cases h0 : s = "" ∨ s.data.length ≤ 15
  · have hlen : s.data.length ≤ 15 := by
      rcases h0 with h | h
      · rw [h]; decide
      · exact h
    unfold breakCategoryName specSegmentLabelAmended
    rw [if_pos h0, if_pos hlen]
  · push_neg at h0
    unfold breakCategoryName specSegmentLabelAmended
    rw [if_neg (by push_neg; exact h0)]
    rw [if_neg (Nat.not_le.2 h0.2)]
    dsimp only
    simp only [knownLabelBreaks, lookupBreak]
    by_cases h1 : jsTrim s = "Physical Environment"
    · simp [h1]
    · by_cases h2 : jsTrim s = "Heavy Workload"
      · simp [h1, h2]
      · by_cases h3 : jsTrim s = "General Comments"
        · simp [h1, h2, h3]
        · by_cases h4 : jsTrim s = "Leadership Comments"
          · simp [h1, h2, h3, h4]
          · by_cases h5 : jsTrim s = "Communication Issues"
            · simp [h1, h2, h3, h4, h5]
            · by_cases h6 : jsTrim s = "Interpersonal Issues"
              · simp [h1, h2, h3, h4, h5, h6]
              · by_cases h7 : jsTrim s = "Work-Life Balance"
                · simp [h1, h2, h3, h4, h5, h6, h7]
                · by_cases h8 : jsTrim s = "No Response"
                  · simp [h1, h2, h3, h4, h5, h6, h7, h8]
                  · simp only [h1, h2, h3, h4, h5, h6, h7, h8, if_false]
                    rw [tryBreak_eq_specFirst]

/-- Claim C9 amended: labels of at most 15 characters pass through
unchanged; the scenario labels segment as stated
(`"Physical Environment"` → `["Physical", "Environment"]`, `"Pay"` →
`["Pay"]`); and the whole function equals the claim's priority-ordered
algorithm once its greedy step is amended to charge the separating space
even before the first word (`line.length + word.length + 1 ≤ 18`, so a
first word longer than 17 characters leaves an empty first line with the
whole remainder as the second line). -/
theorem c9_label_segmentation (s : String) :
    (s.data.length ≤ 15 → breakCategoryName s = [s])
    ∧ breakCategoryName "Physical Environment" = ["Physical", "Environment"]
    ∧ breakCategoryName "Pay" = ["Pay"]
    ∧ breakCategoryName s = specSegmentLabelAmended s := by
  refine ⟨?_, by decide, by decide, breakCategoryName_eq_amended s⟩
  intro hlen
  unfold breakCategoryName
  rw [if_pos (Or.inr hlen)]

theorem c9_witness : breakCategoryName "Short" = ["Short"] :=
  (c9_label_segmentation "Short").1 (by decide)

end SurveyShop
